import Mathlib

/-!
# Verification of the abandoned-cart reminder pipeline

A shallow embedding of the repository's executable core:

* the abandoned-cart scanner `checkAbandonedCarts` (abandoned-cart-cron.js),
  modelled as a function over an explicit database state plus an environment
  of fallible collaborators (the Supabase queries, the OpenAI text generator,
  the `messages_sent` insert), with JavaScript exception semantics made
  explicit (state survives a throw; `try`/`catch` is `tryCatchJs`);
* the view-ingestion endpoint `POST /track-view` (track-view-endpoint.js),
  modelled twice at different effect fidelity: `trackView` over an oracle of
  fallible persistence operations (for the error-handling claims) and
  `trackViewDb` over an in-memory database with succeeding persistence
  (for the state-accumulation claim about product records);
* the SMS post-processing of `generateReminderMessage`
  (generate-reminder-message.js), on `List Char` so that length reasoning is
  elementary (JavaScript `String.prototype.length` counts UTF-16 units; the
  distinction is irrelevant to the 160-character bound for the code points
  involved).

Timestamps are modelled as natural numbers (milliseconds since epoch);
ISO-8601 strings compare identically to their millisecond values for the
relevant range.  Database row identifiers are natural numbers standing in
for UUIDs.
-/

/-! ## Basic character-list utilities (JavaScript string operations) -/

/-- The whitespace characters removed by `String.prototype.trim` (restricted
to the ASCII whitespace actually relevant here; JavaScript also trims other
Unicode space characters, which never occur in the claims). -/
def isWsChar (c : Char) : Bool := c == ' ' || c == '\t' || c == '\n' || c == '\r'

/-- JavaScript `s.trim()` on a character list. -/
def trimL (l : List Char) : List Char :=
  ((l.dropWhile isWsChar).reverse.dropWhile isWsChar).reverse

/-- A double or single quote, the character class `["']` of
`message.replace(/^["']|["']$/g, '')`. -/
def isQuoteChar (c : Char) : Bool := c == '"' || c == '\''

/-- Remove one leading quote character if present (the `^["']` alternative). -/
def dropLeadingQuote : List Char → List Char
  | [] => []
  | c :: rest => if isQuoteChar c then rest else c :: rest

/-- Remove one trailing quote character if present (the `["']$` alternative). -/
def dropTrailingQuote (l : List Char) : List Char :=
  (dropLeadingQuote l.reverse).reverse

/-- `message.replace(/^["']|["']$/g, '')`: the regex removes at most one
leading and at most one trailing quote character. -/
def stripSurroundingQuotes (l : List Char) : List Char :=
  dropTrailingQuote (dropLeadingQuote l)

/-- The post-processing applied by `generateReminderMessage` to the raw text
returned by the chat-completion call:

```js
let message = completion.choices[0].message.content.trim();
message = message.replace(/^["']|["']$/g, '');
if (message.length > 160) {
  message = message.substring(0, 157) + '...';
}
```
-/
def postprocessMessage (raw : List Char) : List Char :=
  if 160 < (stripSurroundingQuotes (trimL raw)).length then
    (stripSurroundingQuotes (trimL raw)).take 157 ++ ['.', '.', '.']
  else
    stripSurroundingQuotes (trimL raw)

/-! ## First-encounter deduplication

JavaScript `[...new Set(xs)]` keeps the first occurrence of each element in
encounter order, as does the key set of the `userGroups` object built by
repeated `push`es (`Object.entries` yields string keys in insertion order).
-/

/-- Worker for `dedupFirst`: `seen` accumulates the elements already kept. -/
def dedupFirstGo [DecidableEq α] (seen : List α) : List α → List α
  | [] => []
  | a :: l => if a ∈ seen then dedupFirstGo seen l else a :: dedupFirstGo (a :: seen) l

/-- `[...new Set(l)]`: deduplicate keeping first occurrences in order. -/
def dedupFirst [DecidableEq α] (l : List α) : List α := dedupFirstGo [] l

theorem mem_dedupFirstGo [DecidableEq α] (x : α) (l : List α) :
    ∀ seen, x ∈ dedupFirstGo seen l ↔ x ∈ l ∧ x ∉ seen := by
  induction l with
  | nil => intro seen; simp [dedupFirstGo]
  | cons a l ih =>
    intro seen
    simp only [dedupFirstGo]
    split
    · rw [ih]
      simp only [List.mem_cons]
      constructor
      · rintro ⟨hx, hs⟩; exact ⟨Or.inr hx, hs⟩
      · rintro ⟨rfl | hx, hs⟩
        · exact absurd (by assumption) hs
        · exact ⟨hx, hs⟩
    · simp only [List.mem_cons, ih]
      constructor
      · rintro (rfl | ⟨hx, hs⟩)
        · exact ⟨Or.inl rfl, by assumption⟩
        · simp only [List.mem_cons, not_or] at hs
          exact ⟨Or.inr hx, hs.2⟩
      · rintro ⟨rfl | hx, hs⟩
        · exact Or.inl rfl
        · by_cases hxa : x = a
          · exact Or.inl hxa
          · exact Or.inr ⟨hx, by simp [hxa, hs]⟩

theorem mem_dedupFirst [DecidableEq α] (x : α) (l : List α) :
    x ∈ dedupFirst l ↔ x ∈ l := by
  rw [dedupFirst, mem_dedupFirstGo]
  simp

theorem nodup_dedupFirstGo [DecidableEq α] (l : List α) :
    ∀ seen, (dedupFirstGo seen l).Nodup := by
  induction l with
  | nil => intro seen; simp [dedupFirstGo]
  | cons a l ih =>
    intro seen
    simp only [dedupFirstGo]
    split
    · exact ih seen
    · refine List.Nodup.cons ?_ (ih (a :: seen))
      intro hmem
      rw [mem_dedupFirstGo] at hmem
      exact hmem.2 (List.mem_cons_self a seen)

theorem nodup_dedupFirst [DecidableEq α] (l : List α) : (dedupFirst l).Nodup :=
  nodup_dedupFirstGo l []

/-! ## Data model (supabase_schema.sql) -/

/-- The `message_type` check constraint:
`message_type IN ('email', 'sms', 'push', 'in_app', 'chat')`. -/
inductive MessageType where
  | email | sms | push | inApp | chat
deriving DecidableEq, Repr

/-- The urgency tiers passed to the message generator. -/
inductive Urgency where
  | low | medium | high
deriving DecidableEq, Repr

/-- A row of `public.users`.  The table has no phone-number column; `email`
is `Option` because the scanner guards against a missing address with
`if (!user.email)`. -/
structure User where
  id : Nat
  email : Option String
  full_name : Option String
deriving DecidableEq, Repr

/-- A row of `public.products`: the caller-supplied identifier and the
display name recorded at creation (description/price/category are inserted
as `null` and never read by the core, so they are omitted). -/
structure Product where
  id : String
  name : String
deriving DecidableEq, Repr

/-- A row of `public.products_viewed`. -/
structure ViewEvent where
  id : Nat
  user_id : Option Nat
  product_id : String
  product_name : String
  timestamp : Nat
deriving DecidableEq, Repr

/-- A row of `public.messages_sent`. -/
structure SentMessage where
  user_id : Nat
  message_type : MessageType
  content : String
  sent_at : Nat
deriving DecidableEq, Repr

/-- The database state.  `nextUserId`/`nextViewId` model the generated row
identifiers of the in-memory semantics `trackViewDb`. -/
structure DB where
  users : List User
  products : List Product
  views : List ViewEvent
  messages : List SentMessage
  nextUserId : Nat
  nextViewId : Nat
deriving DecidableEq, Repr

/-- JavaScript truthiness of an optional string field
(`undefined`, `null` and `''` are falsy). -/
def truthyOpt : Option String → Bool
  | none => false
  | some s => !(s == "")

/-! ## The abandoned-cart scanner (abandoned-cart-cron.js)

`checkAbandonedCarts` runs against the database plus an environment of
collaborator behaviours: which Supabase queries report an error, what the
OpenAI call returns (or throws), and whether the `messages_sent` insert
reports an error.  Queries that do not report an error are answered from the
database state.
-/

/-- A row of the initial scan query: a recent `products_viewed` row inner
joined (`users!inner(email, full_name)`) to its user. -/
structure JoinedView where
  uid : Nat
  view : ViewEvent
  email : Option String
  full_name : Option String
deriving DecidableEq, Repr

/-- Look up a user row by primary key (the foreign-key join target). -/
def findUser (db : DB) (uid : Nat) : Option User :=
  db.users.find? (fun u => u.id == uid)

/-- The `users!inner(...)` join: a view row survives only if its `user_id`
is non-null and resolves to a user row. -/
def joinView (db : DB) (v : ViewEvent) : Option JoinedView :=
  v.user_id.bind (fun uid =>
    (findUser db uid).map (fun u => ⟨uid, v, u.email, u.full_name⟩))

/-- Insert into a list sorted by descending view timestamp. -/
def insertTsDesc (v : JoinedView) : List JoinedView → List JoinedView
  | [] => [v]
  | w :: ws =>
    if w.view.timestamp ≤ v.view.timestamp then v :: w :: ws
    else w :: insertTsDesc v ws

/-- `.order('timestamp', { ascending: false })`: sort by descending
timestamp (ties in an unspecified order, as in PostgreSQL). -/
def sortTsDesc : List JoinedView → List JoinedView
  | [] => []
  | v :: vs => insertTsDesc v (sortTsDesc vs)

theorem mem_insertTsDesc (x v : JoinedView) (l : List JoinedView) :
    x ∈ insertTsDesc v l ↔ x = v ∨ x ∈ l := by
  induction l with
  | nil => simp [insertTsDesc]
  | cons w ws ih =>
    simp only [insertTsDesc]
    split
    · simp
    · simp only [List.mem_cons, ih]
      tauto

theorem mem_sortTsDesc (x : JoinedView) (l : List JoinedView) :
    x ∈ sortTsDesc l ↔ x ∈ l := by
  induction l with
  | nil => simp [sortTsDesc]
  | cons v vs ih =>
    simp only [sortTsDesc, mem_insertTsDesc, List.mem_cons, ih]

/-- `cutoffTime = new Date(Date.now() - (30 * 60 * 1000))`: the detection
window and (identically) the reminder cooldown window. -/
def cutoffTime (now : Nat) : Nat := now - 30 * 60 * 1000

/-- The initial scan query:

```js
supabase.from('products_viewed')
  .select('id, user_id, product_id, product_name, timestamp, users!inner(email, full_name)')
  .gte('timestamp', cutoffTime.toISOString())
  .order('timestamp', { ascending: false });
```
-/
def fetchRecentViews (db : DB) (cutoff : Nat) : List JoinedView :=
  sortTsDesc ((db.views.filter (fun v => cutoff ≤ v.timestamp)).filterMap (joinView db))

/-- `userGroups`: views grouped by `user_id`, keys in first-encounter order
(`Object.entries` iterates string keys in insertion order), each group
holding that user's views in fetched order. -/
def groupByUser (l : List JoinedView) : List (Nat × List JoinedView) :=
  (dedupFirst (l.map (fun v => v.uid))).map
    (fun k => (k, l.filter (fun v => v.uid == k)))

/-- The per-user cooldown query:

```js
supabase.from('messages_sent').select('id')
  .eq('user_id', userId).eq('message_type', 'sms')
  .gte('sent_at', cutoffTime.toISOString());
```
-/
def recentSmsFor (db : DB) (cutoff uid : Nat) : List SentMessage :=
  db.messages.filter
    (fun m => decide (m.user_id = uid ∧ m.message_type = MessageType.sms ∧ cutoff ≤ m.sent_at))

/-- `user.email.split('@')[0]`: the part before the first `@`. -/
def emailLocalPart (s : String) : String := String.mk (s.toList.takeWhile (fun c => !(c == '@')))

/-- `user.full_name || user.email.split('@')[0]`. -/
def displayName (full_name : Option String) (email : String) : String :=
  match full_name with
  | some n => if n == "" then emailLocalPart email else n
  | none => emailLocalPart email

/-- The urgency computation:

```js
const minutesSinceView = Math.floor((Date.now() - new Date(oldestView.timestamp)) / (1000 * 60));
let urgencyLevel = 'low';
if (minutesSinceView > 20) urgencyLevel = 'high';
else if (minutesSinceView > 15) urgencyLevel = 'medium';
```

Natural subtraction makes a future-dated view yield 0 elapsed minutes, as
does the JavaScript original (a negative value floors below every threshold,
leaving `'low'`). -/
def urgencyOf (now ts : Nat) : Urgency :=
  if (now - ts) / 60000 > 20 then Urgency.high
  else if (now - ts) / 60000 > 15 then Urgency.medium
  else Urgency.low

/-- `views.reduce(...)`: the view with the minimal timestamp, starting from
`views[0]` (only its timestamp is consumed downstream). -/
def oldestViewOf (v0 : JoinedView) (rest : List JoinedView) : JoinedView :=
  rest.foldl (fun o v => if v.view.timestamp < o.view.timestamp then v else o) v0

/-- `[...new Set(views.map(v => v.product_id))]`. -/
def groupProductIds (g : List JoinedView) : List String :=
  dedupFirst (g.map (fun v => v.view.product_id))

/-- `[...new Set(views.map(v => v.product_name))].join(', ')`. -/
def groupProductNames (g : List JoinedView) : String :=
  String.intercalate ", " (dedupFirst (g.map (fun v => v.view.product_name)))

/-- The environment of collaborator behaviours for one tick. -/
structure TickEnv where
  /-- `Date.now()` (the tick runs against a single instant; the drift from
  the one-second pacing delay between users is not modelled). -/
  now : Nat
  db : DB
  /-- `process.env.SHOP_URL`. -/
  shopUrl : String
  /-- whether the initial scan query reports `viewsError`. -/
  fetchViewsErr : Bool
  /-- whether the cooldown query for a given user reports `ordersError`. -/
  ordersErr : Nat → Bool
  /-- `generateReminderMessage(name, productNames, urgencyLevel, checkoutLink)`:
  resolves to a message or throws. -/
  generate : String → String → Urgency → String → Except String String
  /-- whether the `messages_sent` insert for a given user reports
  `messageError`. -/
  insertErr : Nat → Bool

/-- `` `${process.env.SHOP_URL}/checkout?products=${productIds.join(',')}&user=${userId}` ``. -/
def groupCheckoutLink (env : TickEnv) (uid : Nat) (g : List JoinedView) : String :=
  env.shopUrl ++ "/checkout?products=" ++ String.intercalate "," (groupProductIds g)
    ++ "&user=" ++ toString uid

/-- The control-flow outcome of one iteration of the per-user loop.  The two
constructors carrying a thrown exception (`skipEmptyGroup`, the `TypeError`
from `views[0].users` on an impossible empty group, and `genFailed`, a
rejection of `generateReminderMessage`) are the paths absorbed by the
per-user `catch`. -/
inductive UserStep where
  /-- `views[0].users` threw (group empty; caught by the per-user catch). -/
  | skipEmptyGroup
  /-- `if (!user.email) { ...; continue; }` -/
  | skipNoEmail
  /-- `if (ordersError) { ...; continue; }` -/
  | skipOrdersError
  /-- `if (recentOrders && recentOrders.length > 0) { ...; continue; }` -/
  | skipRecentReminder
  /-- `generateReminderMessage` threw after `processedCount++` (caught by
  the per-user catch). -/
  | genFailed (e : String)
  /-- the `messages_sent` insert reported `messageError` (logged; no row,
  `sentCount` not incremented). -/
  | insertFailed
  /-- the `messages_sent` insert succeeded with this row. -/
  | logged (m : SentMessage)
deriving DecidableEq, Repr

/-- The tail of the iteration, from the settled `generateReminderMessage`
promise on: a rejection becomes a caught throw, a message is logged in test
mode (no Twilio call) and inserted into `messages_sent`. -/
def stepOfGen (env : TickEnv) (uid : Nat) : Except String String → UserStep
  | Except.error e => UserStep.genFailed e
  | Except.ok message =>
    if env.insertErr uid then UserStep.insertFailed
    else UserStep.logged ⟨uid, MessageType.sms, message, env.now⟩

/-- One iteration of `for (const [userId, views] of Object.entries(userGroups))`,
as a pure decision tree.  The statement order follows the source: email
guard, cooldown query, cooldown check, `processedCount++`, checkout link,
urgency, generation, test-mode log (no Twilio call exists in this function),
insert. -/
def processUserStep (env : TickEnv) (cutoff uid : Nat) : List JoinedView → UserStep
  | [] => UserStep.skipEmptyGroup
  | v0 :: rest =>
    if truthyOpt v0.email = false then UserStep.skipNoEmail
    else if env.ordersErr uid then UserStep.skipOrdersError
    else if 0 < (recentSmsFor env.db cutoff uid).length then UserStep.skipRecentReminder
    else
      stepOfGen env uid
        (env.generate (displayName v0.full_name (v0.email.getD ""))
          (groupProductNames (v0 :: rest))
          (urgencyOf env.now (oldestViewOf v0 rest).view.timestamp)
          (groupCheckoutLink env uid (v0 :: rest)))

/-- The mutable state of one tick: the users for which `processedCount` was
incremented, the `messages_sent` rows successfully inserted (`sentCount`
increments once per element), and the Twilio delivery calls made —
`checkAbandonedCarts` contains none, only the `[TEST MODE]` log, so this
trace never grows. -/
structure LoopState where
  processedUsers : List Nat
  inserted : List SentMessage
  delivered : List (String × String)
deriving DecidableEq, Repr

/-- The state at the top of a tick. -/
def LoopState.init : LoopState := ⟨[], [], []⟩

/-- The state change of one per-user iteration. -/
def applyStep (st : LoopState) (uid : Nat) : UserStep → LoopState
  | UserStep.skipEmptyGroup => st
  | UserStep.skipNoEmail => st
  | UserStep.skipOrdersError => st
  | UserStep.skipRecentReminder => st
  | UserStep.genFailed _ => { st with processedUsers := st.processedUsers ++ [uid] }
  | UserStep.insertFailed => { st with processedUsers := st.processedUsers ++ [uid] }
  | UserStep.logged m =>
    { st with
      processedUsers := st.processedUsers ++ [uid]
      inserted := st.inserted ++ [m] }

/-- A JavaScript computation over mutable state `σ`: it yields the final
state even when it terminates by throwing (an exception does not roll the
state back). -/
def JsThrow (σ α : Type) : Type := σ → σ × Except String α

/-- `try { x } catch (e) { h e }`. -/
def tryCatchJs (x : JsThrow σ α) (h : String → JsThrow σ α) : JsThrow σ α :=
  fun s =>
    match x s with
    | (s', Except.ok a) => (s', Except.ok a)
    | (s', Except.error e) => h e s'

/-- The body of one per-user iteration with its state effects and exception
behaviour: the two throwing paths of `processUserStep` propagate (with the
state reached so far — in particular `processedCount` stays incremented when
generation throws), the rest return normally. -/
def processUserBody (env : TickEnv) (cutoff uid : Nat) (g : List JoinedView) :
    JsThrow LoopState Unit :=
  fun st =>
    match processUserStep env cutoff uid g with
    | UserStep.skipEmptyGroup =>
      (st, Except.error "TypeError: cannot read properties of undefined")
    | UserStep.genFailed e =>
      ({ st with processedUsers := st.processedUsers ++ [uid] }, Except.error e)
    | step => (applyStep st uid step, Except.ok ())

/-- One iteration of the per-user `for` loop: the body under its own
`try`/`catch (error) { console.error(...); }` that logs and continues, with
exception propagation of the enclosing sequence made explicit. -/
def loopStep (env : TickEnv) (cutoff : Nat) (acc : LoopState × Except String Unit)
    (p : Nat × List JoinedView) : LoopState × Except String Unit :=
  match acc with
  | (s, Except.ok _) =>
    tryCatchJs (processUserBody env cutoff p.1 p.2) (fun _ s' => (s', Except.ok ())) s
  | (s, Except.error e) => (s, Except.error e)

/-- The body of the outer `try` of `checkAbandonedCarts`: a `viewsError` or
an empty scan result returns early; otherwise the per-user loop runs. -/
def tickBody (env : TickEnv) : JsThrow LoopState Unit :=
  fun st =>
    if env.fetchViewsErr then (st, Except.ok ())
    else if (fetchRecentViews env.db (cutoffTime env.now)).isEmpty then (st, Except.ok ())
    else
      (groupByUser (fetchRecentViews env.db (cutoffTime env.now))).foldl
        (loopStep env (cutoffTime env.now)) (st, Except.ok ())

/-- `checkAbandonedCarts`: the whole tick, wrapped in the outer
`try`/`catch (error) { console.error('❌ Error in abandoned cart check:', error); }`. -/
def checkAbandonedCarts (env : TickEnv) : JsThrow LoopState Unit :=
  tryCatchJs (tickBody env) (fun _ s => (s, Except.ok ()))

/-! ### The tick as a total function

`tickRunFrom` is the same computation written as a total fold: every group
is processed, each through `processUserStep`.  The linking lemma
`checkAbandonedCarts_run` proves `checkAbandonedCarts` equal to it (and in
particular that no exception ever escapes). -/

/-- The per-user steps of a tick, one for every group. -/
def tickSteps (env : TickEnv) : List (Nat × UserStep) :=
  (groupByUser (fetchRecentViews env.db (cutoffTime env.now))).map
    (fun p => (p.1, processUserStep env (cutoffTime env.now) p.1 p.2))

/-- The tick as a total function on the loop state. -/
def tickRunFrom (env : TickEnv) (st : LoopState) : LoopState :=
  if env.fetchViewsErr then st
  else if (fetchRecentViews env.db (cutoffTime env.now)).isEmpty then st
  else (tickSteps env).foldl (fun s q => applyStep s q.1 q.2) st

theorem processUser_caught (env : TickEnv) (cutoff uid : Nat) (g : List JoinedView)
    (st : LoopState) :
    tryCatchJs (processUserBody env cutoff uid g) (fun _ s' => (s', Except.ok ())) st =
      (applyStep st uid (processUserStep env cutoff uid g), Except.ok ()) := by
  unfold tryCatchJs processUserBody
  cases h : processUserStep env cutoff uid g <;> simp [applyStep]

theorem loopStep_ok (env : TickEnv) (cutoff : Nat) (st : LoopState)
    (p : Nat × List JoinedView) :
    loopStep env cutoff (st, Except.ok ()) p =
      (applyStep st p.1 (processUserStep env cutoff p.1 p.2), Except.ok ()) :=
  processUser_caught env cutoff p.1 p.2 st

theorem checkAbandonedCarts_loop (env : TickEnv) (cutoff : Nat)
    (gs : List (Nat × List JoinedView)) : ∀ st : LoopState,
    gs.foldl (loopStep env cutoff) (st, Except.ok ()) =
      ((gs.map (fun p => (p.1, processUserStep env cutoff p.1 p.2))).foldl
        (fun s q => applyStep s q.1 q.2) st, Except.ok ()) := by
  induction gs with
  | nil => intro st; simp
  | cons p ps ih =>
    intro st
    rw [List.foldl_cons, loopStep_ok, List.map_cons, List.foldl_cons]
    exact ih (applyStep st p.1 (processUserStep env cutoff p.1 p.2))

theorem tickBody_eq (env : TickEnv) (st : LoopState) :
    tickBody env st = (tickRunFrom env st, Except.ok ()) := by
  unfold tickBody tickRunFrom tickSteps
  split
  · rfl
  · split
    · rfl
    · exact checkAbandonedCarts_loop env (cutoffTime env.now) _ st

/-- `checkAbandonedCarts` always returns normally, and its final state is
the total fold `tickRunFrom`. -/
theorem checkAbandonedCarts_run (env : TickEnv) (st : LoopState) :
    checkAbandonedCarts env st = (tickRunFrom env st, Except.ok ()) := by
  unfold checkAbandonedCarts tryCatchJs
  rw [tickBody_eq]

/-! ### Effect extraction -/

/-- The user whose `processedCount` increment a step carries, if any. -/
def stepProcessed (q : Nat × UserStep) : Option Nat :=
  match q.2 with
  | UserStep.genFailed _ => some q.1
  | UserStep.insertFailed => some q.1
  | UserStep.logged _ => some q.1
  | _ => none

/-- The `messages_sent` row a step inserts, if any. -/
def stepInserted (q : Nat × UserStep) : Option SentMessage :=
  match q.2 with
  | UserStep.logged m => some m
  | _ => none

theorem foldl_applyStep (steps : List (Nat × UserStep)) : ∀ st : LoopState,
    steps.foldl (fun s q => applyStep s q.1 q.2) st =
      { processedUsers := st.processedUsers ++ steps.filterMap stepProcessed
        inserted := st.inserted ++ steps.filterMap stepInserted
        delivered := st.delivered } := by
  induction steps with
  | nil => intro st; simp
  | cons q qs ih =>
    intro st
    rw [List.foldl_cons, ih]
    obtain ⟨uid, s⟩ := q
    cases s <;> simp [applyStep, stepProcessed, stepInserted]

/-- The final loop state of a tick started from the initial state. -/
theorem tick_final (env : TickEnv) :
    (checkAbandonedCarts env LoopState.init).1 =
      if env.fetchViewsErr then LoopState.init
      else if (fetchRecentViews env.db (cutoffTime env.now)).isEmpty then LoopState.init
      else
        { processedUsers := (tickSteps env).filterMap stepProcessed
          inserted := (tickSteps env).filterMap stepInserted
          delivered := [] } := by
  rw [checkAbandonedCarts_run]
  unfold tickRunFrom
  split
  · rfl
  · split
    · rfl
    · rw [foldl_applyStep]
      rfl

/-- A tick never makes a Twilio delivery call. -/
theorem tick_delivered (env : TickEnv) :
    ((checkAbandonedCarts env LoopState.init).1).delivered = [] := by
  rw [tick_final]
  split
  · rfl
  · split <;> rfl

/-- Every inserted row of a tick comes from some per-user step. -/
theorem tick_inserted_of_mem (env : TickEnv) (r : SentMessage)
    (h : r ∈ ((checkAbandonedCarts env LoopState.init).1).inserted) :
    ∃ q ∈ tickSteps env, stepInserted q = some r := by
  rw [tick_final] at h
  split at h
  · simp [LoopState.init] at h
  · split at h
    · simp [LoopState.init] at h
    · exact List.mem_filterMap.mp h

/-! ### Characterisation of the scan, the grouping and the per-user steps -/

theorem mem_fetchRecentViews (db : DB) (cutoff : Nat) (jv : JoinedView) :
    jv ∈ fetchRecentViews db cutoff ↔
      jv.view ∈ db.views ∧ cutoff ≤ jv.view.timestamp ∧
        jv.view.user_id = some jv.uid ∧
        ∃ u, findUser db jv.uid = some u ∧ jv.email = u.email ∧ jv.full_name = u.full_name := by
  unfold fetchRecentViews
  rw [mem_sortTsDesc, List.mem_filterMap]
  constructor
  · rintro ⟨v, hv, hj⟩
    rw [List.mem_filter] at hv
    unfold joinView at hj
    rw [Option.bind_eq_some] at hj
    obtain ⟨uid, huid, hj⟩ := hj
    rw [Option.map_eq_some'] at hj
    obtain ⟨u, hu, hjv⟩ := hj
    subst hjv
    exact ⟨hv.1, by simpa using hv.2, huid, u, hu, rfl, rfl⟩
  · rintro ⟨hv, hts, huid, u, hu, he, hf⟩
    refine ⟨jv.view, List.mem_filter.mpr ⟨hv, by simpa using hts⟩, ?_⟩
    unfold joinView
    rw [huid, Option.bind_eq_some]
    refine ⟨jv.uid, rfl, ?_⟩
    rw [Option.map_eq_some']
    refine ⟨u, hu, ?_⟩
    obtain ⟨a, b, c, d⟩ := jv
    simp only at he hf ⊢
    rw [he, hf]

theorem groupByUser_keys (l : List JoinedView) :
    (groupByUser l).map Prod.fst = dedupFirst (l.map (fun v => v.uid)) := by
  unfold groupByUser
  rw [List.map_map]
  exact List.map_id _

theorem mem_groupByUser (l : List JoinedView) (p : Nat × List JoinedView) :
    p ∈ groupByUser l ↔
      p.1 ∈ dedupFirst (l.map (fun v => v.uid)) ∧
        p.2 = l.filter (fun v => v.uid == p.1) := by
  unfold groupByUser
  rw [List.mem_map]
  constructor
  · rintro ⟨k, hk, hp⟩
    cases hp
    exact ⟨hk, rfl⟩
  · rintro ⟨h1, h2⟩
    refine ⟨p.1, h1, ?_⟩
    obtain ⟨k, g⟩ := p
    simp only at h2 ⊢
    rw [h2]

theorem group_of_mem (l : List JoinedView) (jv : JoinedView) (h : jv ∈ l) :
    (jv.uid, l.filter (fun v => v.uid == jv.uid)) ∈ groupByUser l := by
  rw [mem_groupByUser]
  exact ⟨(mem_dedupFirst _ _).mpr (List.mem_map.mpr ⟨jv, h, rfl⟩), rfl⟩

theorem mem_tickSteps (env : TickEnv) (q : Nat × UserStep) :
    q ∈ tickSteps env ↔
      ∃ g, (q.1, g) ∈ groupByUser (fetchRecentViews env.db (cutoffTime env.now)) ∧
        q.2 = processUserStep env (cutoffTime env.now) q.1 g := by
  unfold tickSteps
  rw [List.mem_map]
  constructor
  · rintro ⟨p, hp, hq⟩
    cases hq
    exact ⟨p.2, hp, rfl⟩
  · rintro ⟨g, hg, hq⟩
    refine ⟨(q.1, g), hg, ?_⟩
    obtain ⟨k, s⟩ := q
    simp only at hq ⊢
    rw [hq]

/-- What a successful `messages_sent` insert tells us about the step that
produced it: its user, channel and send time, and the conditions the
iteration necessarily passed on the way (non-empty group, truthy email,
empty cooldown query result). -/
theorem processUserStep_logged (env : TickEnv) (cutoff uid : Nat) (g : List JoinedView)
    (m : SentMessage) (h : processUserStep env cutoff uid g = UserStep.logged m) :
    m.user_id = uid ∧ m.message_type = MessageType.sms ∧ m.sent_at = env.now ∧
      (recentSmsFor env.db cutoff uid).length = 0 ∧
      ∃ v0 rest, g = v0 :: rest ∧ truthyOpt v0.email = true := by
  cases g with
  | nil => simp [processUserStep] at h
  | cons v0 rest =>
    simp only [processUserStep] at h
    by_cases h1 : truthyOpt v0.email = false
    · rw [if_pos h1] at h; cases h
    · rw [if_neg h1] at h
      by_cases h2 : env.ordersErr uid = true
      · rw [if_pos h2] at h; cases h
      · rw [if_neg h2] at h
        by_cases h3 : 0 < (recentSmsFor env.db cutoff uid).length
        · rw [if_pos h3] at h; cases h
        · rw [if_neg h3] at h
          cases hgen : env.generate (displayName v0.full_name (v0.email.getD ""))
              (groupProductNames (v0 :: rest))
              (urgencyOf env.now (oldestViewOf v0 rest).view.timestamp)
              (groupCheckoutLink env uid (v0 :: rest)) with
          | error e => rw [hgen] at h; simp only [stepOfGen] at h; cases h
          | ok message =>
            rw [hgen] at h
            simp only [stepOfGen] at h
            by_cases h4 : env.insertErr uid = true
            · rw [if_pos h4] at h; cases h
            · rw [if_neg h4] at h
              cases h
              refine ⟨rfl, rfl, rfl, by omega, v0, rest, rfl, ?_⟩
              simp only [Bool.not_eq_false] at h1
              exact h1

/-- A user with a non-empty cooldown query result is skipped before
`processedCount++`. -/
theorem processUserStep_skip_recent (env : TickEnv) (cutoff uid : Nat)
    (g : List JoinedView) (h : 0 < (recentSmsFor env.db cutoff uid).length) :
    stepProcessed (uid, processUserStep env cutoff uid g) = none ∧
      stepInserted (uid, processUserStep env cutoff uid g) = none := by
  cases g with
  | nil => simp [processUserStep, stepProcessed, stepInserted]
  | cons v0 rest =>
    simp only [processUserStep]
    by_cases h1 : truthyOpt v0.email = false
    · rw [if_pos h1]; simp [stepProcessed, stepInserted]
    · rw [if_neg h1]
      by_cases h2 : env.ordersErr uid = true
      · rw [if_pos h2]; simp [stepProcessed, stepInserted]
      · rw [if_neg h2, if_pos h]
        simp [stepProcessed, stepInserted]

/-- A user whose group is non-empty with a truthy email, whose cooldown
query succeeds and comes back empty, reaches `processedCount++`. -/
theorem processUserStep_processed (env : TickEnv) (cutoff uid : Nat)
    (v0 : JoinedView) (rest : List JoinedView)
    (h1 : truthyOpt v0.email = true) (h2 : env.ordersErr uid = false)
    (h3 : (recentSmsFor env.db cutoff uid).length = 0) :
    stepProcessed (uid, processUserStep env cutoff uid (v0 :: rest)) = some uid := by
  simp only [processUserStep]
  rw [if_neg (by simp [h1]), if_neg (by simp [h2]), if_neg (by omega)]
  cases env.generate (displayName v0.full_name (v0.email.getD ""))
      (groupProductNames (v0 :: rest))
      (urgencyOf env.now (oldestViewOf v0 rest).view.timestamp)
      (groupCheckoutLink env uid (v0 :: rest)) with
  | error e => simp [stepOfGen, stepProcessed]
  | ok message =>
    simp only [stepOfGen]
    by_cases h4 : env.insertErr uid = true
    · rw [if_pos h4]; simp [stepProcessed]
    · rw [if_neg h4]; simp [stepProcessed]

/-! ## The view-ingestion endpoint (track-view-endpoint.js)

`POST /track-view` destructures `{ user_email, product_id, product_name,
timestamp }` from the JSON body.  Fields can hold arbitrary JSON values, so
requests carry `JValue`s; an absent key destructures to `undefined`, which
behaves like `null` in every check the handler performs, so absence is
folded into `jnull` by `jfield`.
-/

/-- A JSON value as seen by the handler (numbers restricted to integers:
no fractional or NaN values occur in any claim, and `typeof` and truthiness
of a number other than 0/NaN do not depend on its value). -/
inductive JValue where
  | jstr (s : String)
  | jnum (n : Int)
  | jbool (b : Bool)
  | jnull
deriving DecidableEq, Repr

/-- JavaScript truthiness. -/
def JValue.truthy : JValue → Bool
  | JValue.jstr s => !(s == "")
  | JValue.jnum n => !(n == 0)
  | JValue.jbool b => b
  | JValue.jnull => false

/-- `typeof v === 'string'`, yielding the string. -/
def isStr : JValue → Option String
  | JValue.jstr s => some s
  | _ => none

/-- A request body. `none` = key absent (destructures to `undefined`). -/
structure TrackRequest where
  user_email : Option JValue
  product_id : Option JValue
  product_name : Option JValue
  timestamp : Option JValue
deriving DecidableEq, Repr

/-- Destructuring with absence folded into `null` (equivalent for
truthiness, `typeof` and the email regex coercion). -/
def jfield (f : Option JValue) : JValue := f.getD JValue.jnull

/-! ### The email regex `/^[^\s@]+@[^\s@]+\.[^\s@]+$/` -/

/-- A character admissible in the local part and domain: not whitespace and
not `@` (the class `[^\s@]`, with `\s` restricted to ASCII whitespace). -/
def emailChar (c : Char) : Bool := !(c == '@') && !(isWsChar c)

/-- Split at the first `@`: the characters before it, and those after it
when one exists. -/
def splitAtSign : List Char → List Char × Option (List Char)
  | [] => ([], none)
  | c :: cs =>
    if c = '@' then ([], some cs)
    else
      ((splitAtSign cs).1.cons c, (splitAtSign cs).2)

/-- The domain part `[^\s@]+\.[^\s@]+`: with backtracking, some `.` must
have a non-empty run of admissible characters on each side; since `.` is
itself admissible, this is exactly an inner `.` (neither first nor last). -/
def domainHasInnerDot (b : List Char) : Bool := ((b.drop 1).dropLast).contains '.'

/-- `emailRegex.test(s)` for the handler's regex. -/
def validEmail (s : String) : Bool :=
  let p := splitAtSign s.toList
  match p.2 with
  | none => false
  | some b =>
    !(p.1.isEmpty) && !(b.isEmpty) && p.1.all emailChar && b.all emailChar
      && domainHasInnerDot b

/-- `emailRegex.test(user_email)` with JavaScript's implicit string
coercion: a number or boolean stringifies without any `@`, so only a string
can pass. -/
def validEmailJ : JValue → Bool
  | JValue.jstr s => validEmail s
  | _ => false

/-! ### Validation (the straight-line prefix of the handler) -/

/-- `if (!product_id || !product_name) return 400` — the required-field
truthiness check. -/
def requiredFieldsCheck (req : TrackRequest) : Except String Unit :=
  if !(jfield req.product_id).truthy || !(jfield req.product_name).truthy then
    Except.error "Missing required fields: product_id and product_name are required"
  else Except.ok ()

/-- `if (typeof x !== 'string' || x.trim() === '') return 400` — the
type/emptiness check applied to `product_id` and `product_name`. -/
def requireNonEmptyStr (errMsg : String) (v : JValue) : Except String String :=
  match isStr v with
  | none => Except.error errMsg
  | some s =>
    if (trimL s.toList).isEmpty then Except.error errMsg else Except.ok s

/-- The timestamp validation: only a *truthy* `timestamp` is parsed
(`timestamp: ''` or `0` silently falls back to `new Date()` = `now`);
`parseTs` is the oracle for `new Date(x).getTime()`, `none` meaning
`NaN`. -/
def validatedTimestamp (parseTs : JValue → Option Nat) (now : Nat) (tv : JValue) :
    Except String Nat :=
  if tv.truthy then
    match parseTs tv with
    | none =>
      Except.error "Invalid timestamp format. Use ISO 8601 format (e.g., 2024-01-01T12:00:00.000Z)"
    | some t => Except.ok t
  else Except.ok now

/-- The email validation: only a *truthy* `user_email` is tested against
the regex (`user_email: ''` silently skips user resolution — `userId`
stays null). -/
def validatedEmail (ev : JValue) : Except String (Option String) :=
  if ev.truthy then
    match ev with
    | JValue.jstr s =>
      if validEmail s then Except.ok (some s) else Except.error "Invalid email format"
    | _ => Except.error "Invalid email format"
  else Except.ok none

/-- The validation prefix of the handler, in source order: required-field
truthiness, `product_id` type/emptiness, `product_name` type/emptiness,
timestamp parse, then the email-format check.  Returns the 400 message or
`(product_id, product_name, validatedTimestamp, validated email)`. -/
def validateTrack (parseTs : JValue → Option Nat) (now : Nat) (req : TrackRequest) :
    Except String (String × String × Nat × Option String) :=
  match requiredFieldsCheck req with
  | Except.error e => Except.error e
  | Except.ok _ =>
    match requireNonEmptyStr "Invalid product_id: must be a non-empty string"
        (jfield req.product_id) with
    | Except.error e => Except.error e
    | Except.ok pid =>
      match requireNonEmptyStr "Invalid product_name: must be a non-empty string"
          (jfield req.product_name) with
      | Except.error e => Except.error e
      | Except.ok pname =>
        match validatedTimestamp parseTs now (jfield req.timestamp) with
        | Except.error e => Except.error e
        | Except.ok validatedTs =>
          match validatedEmail (jfield req.user_email) with
          | Except.error e => Except.error e
          | Except.ok em => Except.ok (pid, pname, validatedTs, em)

/-! ### The handler over an oracle of fallible persistence operations -/

/-- The collaborator behaviours of one handler invocation.  For a Supabase
call, `Except.error` models a rejected promise (a throw); a returned
`{ error }` with null data is behaviourally identical to "not found" for
the lookups (both fall through to creation) and is folded into
`Except.ok none`. -/
structure EndpointEnv where
  /-- `new Date().toISOString()` at default-timestamp time. -/
  nowIso : Nat
  /-- `new Date(x).getTime()`, `none` = `NaN`. -/
  parseTs : JValue → Option Nat
  /-- the user lookup by email: throw, or the found id. -/
  userLookup : String → Except String (Option Nat)
  /-- the user insert: throw, returned error (`none`), or the new id. -/
  userCreate : String → Except String (Option Nat)
  /-- the product lookup by id: throw, or the found id. -/
  productLookup : String → Except String (Option String)
  /-- the product insert: throw or a result (ignored either way). -/
  productCreate : String → String → Except String Unit
  /-- the `products_viewed` insert: a returned `{ error }` (its `.message`
  becomes `details`) or the new row id. -/
  viewInsert : Option Nat → String → String → Nat → Except String Nat

/-- The user-resolution block (its own `try`/`catch`; every failure path
leaves `userId = null`, except a lookup that merely returns no row, which
falls through to creation). -/
def resolveUser (env : EndpointEnv) : Option String → Option Nat
  | none => none
  | some e =>
    match env.userLookup e with
    | Except.error _ => none
    | Except.ok (some uid) => some uid
    | Except.ok none =>
      match env.userCreate e with
      | Except.error _ => none
      | Except.ok r => r

/-- The product-resolution block (its own `try`/`catch`): returns the
`products` insert attempted, if any.  No outcome of this block affects the
response. -/
def productStep (env : EndpointEnv) (pid pname : String) : Option (String × String) :=
  match env.productLookup pid with
  | Except.error _ => none
  | Except.ok (some _) => none
  | Except.ok none => some (pid, pname)

/-- The handler's response. -/
inductive TrackResponse where
  /-- HTTP 400 with `{ error }`. -/
  | badRequest (error : String)
  /-- HTTP 500 with `{ error, details }`. -/
  | serverError (error : String) (details : String)
  /-- HTTP 200 with `{ success: true, data: { view_id, user_id, product_id, timestamp } }`. -/
  | okResponse (view_id : Nat) (user_id : Option Nat) (product_id : String) (timestamp : Nat)
deriving DecidableEq, Repr

/-- The `POST /track-view` handler: validation, user resolution, product
resolution, `products_viewed` insert.  Returns the response, the view row
inserted (if any) and the product insert attempted (if any). -/
def trackView (env : EndpointEnv) (req : TrackRequest) :
    TrackResponse × Option ViewEvent × Option (String × String) :=
  match validateTrack env.parseTs env.nowIso req with
  | Except.error e => (TrackResponse.badRequest e, none, none)
  | Except.ok (pid, pname, ts, em) =>
    match env.viewInsert (resolveUser env em) pid pname ts with
    | Except.error d =>
      (TrackResponse.serverError "Failed to track product view" d, none,
        productStep env pid pname)
    | Except.ok vid =>
      (TrackResponse.okResponse vid (resolveUser env em) pid ts,
        some ⟨vid, resolveUser env em, pid, pname, ts⟩,
        productStep env pid pname)

/-! ### The handler against the in-memory store

The same handler with every persistence operation answered from (and
applied to) the database state — the semantics needed to observe what two
consecutive calls accumulate. -/

/-- The user lookup `.eq('email', user_email).single()` against the store. -/
def findUserByEmail (db : DB) (e : String) : Option Nat :=
  (db.users.find? (fun u => u.email == some e)).map (fun u => u.id)

/-- The product lookup `.eq('id', product_id).single()` against the store. -/
def findProduct (db : DB) (pid : String) : Option Product :=
  db.products.find? (fun p => p.id == pid)

/-- The user-resolution block against the store: lookup by email, else
create (the new row gets the next generated identifier and a null
`full_name`, as in the handler's insert). -/
def resolveUserDb (db : DB) : Option String → Option Nat × DB
  | none => (none, db)
  | some e =>
    match findUserByEmail db e with
    | some uid => (some uid, db)
    | none =>
      (some db.nextUserId,
        { db with
          users := db.users ++ [⟨db.nextUserId, some e, none⟩]
          nextUserId := db.nextUserId + 1 })

/-- The product-resolution block against the store: create only when the
lookup finds nothing; an existing row is left untouched. -/
def ensureProduct (db : DB) (pid pname : String) : DB :=
  match findProduct db pid with
  | some _ => db
  | none => { db with products := db.products ++ [⟨pid, pname⟩] }

/-- The `products_viewed` insert against the store. -/
def insertView (db : DB) (userId : Option Nat) (pid pname : String) (ts : Nat) :
    Nat × DB :=
  (db.nextViewId,
    { db with
      views := db.views ++ [⟨db.nextViewId, userId, pid, pname, ts⟩]
      nextViewId := db.nextViewId + 1 })

/-- `trackView` with in-store persistence: lookups answered from `db`,
creations appended to it, generated identifiers drawn from the counters. -/
def trackViewDb (parseTs : JValue → Option Nat) (now : Nat) (req : TrackRequest)
    (db : DB) : TrackResponse × DB :=
  match validateTrack parseTs now req with
  | Except.error e => (TrackResponse.badRequest e, db)
  | Except.ok (pid, pname, ts, em) =>
    (TrackResponse.okResponse
        (ensureProduct (resolveUserDb db em).2 pid pname).nextViewId
        (resolveUserDb db em).1 pid ts,
      (insertView (ensureProduct (resolveUserDb db em).2 pid pname)
        (resolveUserDb db em).1 pid pname ts).2)

/-! ## Further helper lemmas -/

theorem stepInserted_eq_some (q : Nat × UserStep) (m : SentMessage) :
    stepInserted q = some m ↔ q.2 = UserStep.logged m := by
  obtain ⟨k, s⟩ := q
  cases s <;> simp [stepInserted]

theorem tickSteps_keys (env : TickEnv) :
    (tickSteps env).map Prod.fst =
      (groupByUser (fetchRecentViews env.db (cutoffTime env.now))).map Prod.fst := by
  unfold tickSteps
  rw [List.map_map]
  rfl

theorem tickSteps_row_user (env : TickEnv) (q : Nat × UserStep) (hq : q ∈ tickSteps env)
    (m : SentMessage) (hm : stepInserted q = some m) : m.user_id = q.1 := by
  obtain ⟨g, _, hstep⟩ := (mem_tickSteps env q).mp hq
  rw [stepInserted_eq_some] at hm
  have hlog : processUserStep env (cutoffTime env.now) q.1 g = UserStep.logged m := by
    rw [← hstep, hm]
  exact (processUserStep_logged env (cutoffTime env.now) q.1 g m hlog).1

theorem nodup_filterMap_stepInserted (l : List (Nat × UserStep))
    (hkeys : (l.map Prod.fst).Nodup)
    (hrow : ∀ q ∈ l, ∀ m, stepInserted q = some m → m.user_id = q.1) :
    ((l.filterMap stepInserted).map (fun m => m.user_id)).Nodup := by
  induction l with
  | nil => simp
  | cons q qs ih =>
    rw [List.map_cons, List.nodup_cons] at hkeys
    rw [List.filterMap_cons]
    cases hq : stepInserted q with
    | none => exact ih hkeys.2 (fun p hp => hrow p (List.mem_cons_of_mem _ hp))
    | some m =>
      rw [List.map_cons, List.nodup_cons]
      refine ⟨?_, ih hkeys.2 (fun p hp => hrow p (List.mem_cons_of_mem _ hp))⟩
      intro hmem
      rw [List.mem_map] at hmem
      obtain ⟨m', hm', he⟩ := hmem
      rw [List.mem_filterMap] at hm'
      obtain ⟨q', hq', hsq⟩ := hm'
      have h1 : m.user_id = q.1 := hrow q (List.mem_cons_self _ _) m hq
      have h2 : m'.user_id = q'.1 := hrow q' (List.mem_cons_of_mem _ hq') m' hsq
      exact hkeys.1 (List.mem_map.mpr ⟨q', hq', by omega⟩)

/-! ## Concrete scenario used by the witnesses -/

/-- A user with a deliverable address. -/
def sampleUser : User := ⟨1, some "ada@example.com", some "Ada"⟩

/-- A recent view by that user (the tick below runs at `now = 10000000`,
so the detection cutoff is `8200000`). -/
def sampleView : ViewEvent := ⟨10, some 1, "p1", "Widget", 9000000⟩

def sampleDb : DB := ⟨[sampleUser], [], [sampleView], [], 2, 11⟩

/-- A tick with no injected failures, whose generator resolves with a fixed
message. -/
def sampleEnv : TickEnv :=
  { now := 10000000
    db := sampleDb
    shopUrl := "https://shop.example"
    fetchViewsErr := false
    ordersErr := fun _ => false
    generate := fun _ _ _ _ => Except.ok "Hi Ada!"
    insertErr := fun _ => false }

/-- The joined row the scan produces for `sampleView`. -/
def sampleJv : JoinedView := ⟨1, sampleView, some "ada@example.com", some "Ada"⟩

/-- `sampleDb` plus an sms reminder sent 500 seconds into the cooldown
window. -/
def sampleDbCooldown : DB :=
  ⟨[sampleUser], [], [sampleView],
    [⟨1, MessageType.sms, "earlier reminder", 9500000⟩], 2, 11⟩

def sampleEnvCooldown : TickEnv := { sampleEnv with db := sampleDbCooldown }

/-- A user row with no email, and a recent view by that user. -/
def sampleUserNoEmail : User := ⟨2, none, none⟩

def sampleViewNoEmail : ViewEvent := ⟨11, some 2, "p2", "Gadget", 9100000⟩

def sampleDbNoEmail : DB := ⟨[sampleUserNoEmail], [], [sampleViewNoEmail], [], 3, 12⟩

def sampleEnvNoEmail : TickEnv := { sampleEnv with db := sampleDbNoEmail }

/-- Both users at once: the email-less user 2 viewed more recently than the
deliverable user 1. -/
def sampleDbMixed : DB :=
  ⟨[sampleUser, sampleUserNoEmail], [], [sampleView, sampleViewNoEmail], [], 3, 12⟩

def sampleEnvMixed : TickEnv := { sampleEnv with db := sampleDbMixed }

/-! ## The claims -/

/-- C8: for every string the underlying text generator returns, the Message
Composer's post-processing yields at most 160 characters; a single
surrounding leading/trailing quote character is stripped
(`stripSurroundingQuotes`), and any stripped text still longer than 160
characters is truncated to its first 157 characters plus an ellipsis,
shorter text passing through unchanged. -/
theorem composer_length_bound (raw : List Char) :
    (postprocessMessage raw).length ≤ 160 ∧
      (160 < (stripSurroundingQuotes (trimL raw)).length →
        postprocessMessage raw =
          (stripSurroundingQuotes (trimL raw)).take 157 ++ ['.', '.', '.']) ∧
      ((stripSurroundingQuotes (trimL raw)).length ≤ 160 →
        postprocessMessage raw = stripSurroundingQuotes (trimL raw)) := by
  unfold postprocessMessage
  by_cases h : 160 < (stripSurroundingQuotes (trimL raw)).length
  · rw [if_pos h]
    refine ⟨?_, fun _ => rfl, fun h2 => absurd h (by omega)⟩
    rw [List.length_append, List.length_take]
    simp only [List.length_cons, List.length_nil]
    omega
  · rw [if_neg h]
    exact ⟨by omega, fun h2 => absurd h2 h, fun _ => rfl⟩

set_option maxRecDepth 4000 in
/-- Witness for C8 at a 200-character generator output. -/
theorem composer_length_bound_witness :
    (postprocessMessage (List.replicate 200 'a')).length ≤ 160 ∧
      postprocessMessage (List.replicate 200 'a') =
        (stripSurroundingQuotes (trimL (List.replicate 200 'a'))).take 157 ++ ['.', '.', '.'] :=
  ⟨(composer_length_bound (List.replicate 200 'a')).1,
    (composer_length_bound (List.replicate 200 'a')).2.1 (by decide)⟩

/-- C1 (counterexample): the claim maps `ageMinutes = 15.01` (901 seconds
less 400 ms, i.e. 900600 ms elapsed) to `medium` and `ageMinutes = 20.01`
(1200600 ms) to `high`; the code floors the elapsed minutes first
(`Math.floor(... / (1000 * 60))`), yielding `low` and `medium`
respectively. -/
theorem urgency_boundary_cex :
    urgencyOf 900600 0 ≠ Urgency.medium ∧ urgencyOf 1200600 0 ≠ Urgency.high := by
  constructor <;> decide

/-- C1 (amended): the tier is computed from the floored elapsed minutes
`Math.floor((now − oldest)/60000)`: `high` iff at least 21 full minutes have
elapsed, `medium` iff at least 16 but fewer than 21, `low` otherwise — so on
whole-minute ages the spec's thresholds (`> 20` high, `15 <· ≤ 20` medium)
hold, but the probe ages 14, 15, 15.01, 20, 20.01 minutes yield
low, low, low, medium, medium. -/
theorem urgency_tiers_floor (now ts : Nat) :
    (urgencyOf now ts = Urgency.high ↔ 21 * 60000 ≤ now - ts) ∧
      (urgencyOf now ts = Urgency.medium ↔
        16 * 60000 ≤ now - ts ∧ now - ts < 21 * 60000) ∧
      (urgencyOf now ts = Urgency.low ↔ now - ts < 16 * 60000) ∧
      urgencyOf (14 * 60000) 0 = Urgency.low ∧
      urgencyOf (15 * 60000) 0 = Urgency.low ∧
      urgencyOf 900600 0 = Urgency.low ∧
      urgencyOf (20 * 60000) 0 = Urgency.medium ∧
      urgencyOf 1200600 0 = Urgency.medium := by
  refine ⟨?_, ?_, ?_, by decide, by decide, by decide, by decide, by decide⟩ <;>
    · unfold urgencyOf
      split_ifs with h1 h2 <;> simp <;> omega

/-- C10: `checkAbandonedCarts` never propagates an exception: from any
state it returns `Except.ok ()`, its final state is the total fold
`tickRunFrom`, and one per-user step exists for every user group — a
failure inside one group's iteration (a `genFailed`/`insertFailed`/skip
step) cannot remove any other group's step from the fold. -/
theorem tick_never_throws (env : TickEnv) (st : LoopState) :
    (checkAbandonedCarts env st).2 = Except.ok () ∧
      checkAbandonedCarts env st = (tickRunFrom env st, Except.ok ()) ∧
      (tickSteps env).length =
        (groupByUser (fetchRecentViews env.db (cutoffTime env.now))).length :=
  ⟨by rw [checkAbandonedCarts_run], checkAbandonedCarts_run env st,
    by unfold tickSteps; rw [List.length_map]⟩

/-- C9: a tick inserts at most one `messages_sent` row per distinct user:
the inserted rows have pairwise distinct `user_id`s, the group keys are
pairwise distinct, and every fetched view belongs exactly to the group of
its own `user_id`. -/
theorem at_most_one_reminder_per_user (env : TickEnv) :
    ((((checkAbandonedCarts env LoopState.init).1).inserted.map
        (fun m => m.user_id)).Nodup) ∧
      ((groupByUser (fetchRecentViews env.db (cutoffTime env.now))).map Prod.fst).Nodup ∧
      (∀ jv ∈ fetchRecentViews env.db (cutoffTime env.now),
        jv.uid ∈ (groupByUser (fetchRecentViews env.db (cutoffTime env.now))).map Prod.fst ∧
          ∀ p ∈ groupByUser (fetchRecentViews env.db (cutoffTime env.now)),
            (jv ∈ p.2 ↔ p.1 = jv.uid)) := by
  refine ⟨?_, ?_, ?_⟩
  · rw [tick_final]
    split
    · simp [LoopState.init]
    · split
      · simp [LoopState.init]
      · exact nodup_filterMap_stepInserted (tickSteps env)
          (by rw [tickSteps_keys, groupByUser_keys]; exact nodup_dedupFirst _)
          (tickSteps_row_user env)
  · rw [groupByUser_keys]
    exact nodup_dedupFirst _
  · intro jv hjv
    constructor
    · rw [groupByUser_keys, mem_dedupFirst]
      exact List.mem_map.mpr ⟨jv, hjv, rfl⟩
    · intro p hp
      obtain ⟨hkey, hfil⟩ := (mem_groupByUser _ _).mp hp
      rw [hfil, List.mem_filter]
      constructor
      · rintro ⟨_, hbeq⟩
        exact (beq_iff_eq.mp hbeq).symm
      · intro hk
        exact ⟨hjv, beq_iff_eq.mpr hk.symm⟩

/-- Witness for C9 at the concrete one-user tick. -/
theorem at_most_one_reminder_per_user_witness :
    ((((checkAbandonedCarts sampleEnv LoopState.init).1).inserted.map
      (fun m => m.user_id)).Nodup) :=
  (at_most_one_reminder_per_user sampleEnv).1

/-! ## More helpers for the cooldown and exclusion claims -/

theorem mem_groupByUser' (l : List JoinedView) (k : Nat) (g : List JoinedView) :
    (k, g) ∈ groupByUser l ↔
      k ∈ dedupFirst (l.map (fun v => v.uid)) ∧ g = l.filter (fun v => v.uid == k) := by
  unfold groupByUser
  rw [List.mem_map]
  constructor
  · rintro ⟨k', hk', hp⟩
    obtain ⟨h1, h2⟩ := Prod.mk.injEq .. ▸ hp
    · cases hp
      exact ⟨hk', rfl⟩
  · rintro ⟨h1, h2⟩
    exact ⟨k, h1, by rw [h2]⟩

theorem stepProcessed_key (q : Nat × UserStep) (k : Nat)
    (h : stepProcessed q = some k) : k = q.1 := by
  obtain ⟨a, s⟩ := q
  cases s <;> simp [stepProcessed] at h <;> exact h.symm

theorem tick_processed_of_mem (env : TickEnv) (k : Nat)
    (h : k ∈ ((checkAbandonedCarts env LoopState.init).1).processedUsers) :
    ∃ q ∈ tickSteps env, stepProcessed q = some k := by
  rw [tick_final] at h
  split at h
  · simp [LoopState.init] at h
  · split at h
    · simp [LoopState.init] at h
    · exact List.mem_filterMap.mp h

theorem tick_processed_mem (env : TickEnv) (k : Nat)
    (hferr : env.fetchViewsErr = false)
    (hne : (fetchRecentViews env.db (cutoffTime env.now)).isEmpty = false)
    (h : ∃ q ∈ tickSteps env, stepProcessed q = some k) :
    k ∈ ((checkAbandonedCarts env LoopState.init).1).processedUsers := by
  rw [tick_final, if_neg (by simp [hferr]), if_neg (by simp [hne])]
  exact List.mem_filterMap.mpr h

/-- C2: the cooldown dedupe.  (a) A user with a `messages_sent` row of type
`sms` timestamped within the cooldown window (`sent_at ≥ detectionCutoff`)
is skipped: no row is inserted for them and they never reach
`processedCount++`.  (b) A user with no such row and a qualifying view — a
view inside the detection window that joins to a user with a deliverable
(truthy) email, which is what "qualifying" means after the scan's
`users!inner` join and email guard — is eligible: they reach
`processedCount++`, provided the tick's queries themselves report no error
(`fetchViewsErr`/`ordersErr` are failure injections outside this claim). -/
theorem cooldown_dedupe (env : TickEnv) (uid : Nat) :
    ((∃ m ∈ env.db.messages, m.user_id = uid ∧ m.message_type = MessageType.sms ∧
        cutoffTime env.now ≤ m.sent_at) →
      (∀ r ∈ ((checkAbandonedCarts env LoopState.init).1).inserted, r.user_id ≠ uid) ∧
        uid ∉ ((checkAbandonedCarts env LoopState.init).1).processedUsers) ∧
      (env.fetchViewsErr = false → env.ordersErr uid = false →
        (¬ ∃ m ∈ env.db.messages, m.user_id = uid ∧ m.message_type = MessageType.sms ∧
          cutoffTime env.now ≤ m.sent_at) →
        (∃ v ∈ env.db.views, cutoffTime env.now ≤ v.timestamp ∧ v.user_id = some uid ∧
          ∃ u, findUser env.db uid = some u ∧ truthyOpt u.email = true) →
        uid ∈ ((checkAbandonedCarts env LoopState.init).1).processedUsers) := by
  constructor
  · intro hex
    have hpos : 0 < (recentSmsFor env.db (cutoffTime env.now) uid).length := by
      obtain ⟨m, hm, h1, h2, h3⟩ := hex
      have hmem : m ∈ recentSmsFor env.db (cutoffTime env.now) uid :=
        List.mem_filter.mpr ⟨hm, by rw [decide_eq_true_eq]; exact ⟨h1, h2, h3⟩⟩
      exact List.length_pos.mpr (List.ne_nil_of_mem hmem)
    constructor
    · intro r hr hru
      obtain ⟨q, hq, hsq⟩ := tick_inserted_of_mem env r hr
      have hk : r.user_id = q.1 := tickSteps_row_user env q hq r hsq
      obtain ⟨g, hg, hstep⟩ := (mem_tickSteps env q).mp hq
      obtain ⟨k, s⟩ := q
      simp only at hk hstep hsq
      have hku : k = uid := by rw [← hk, hru]
      subst hku
      have hnone := (processUserStep_skip_recent env (cutoffTime env.now) k g hpos).2
      rw [← hstep] at hnone
      rw [hnone] at hsq
      cases hsq
    · intro hmem'
      obtain ⟨q, hq, hsp⟩ := tick_processed_of_mem env uid hmem'
      have hk : uid = q.1 := stepProcessed_key q uid hsp
      obtain ⟨g, hg, hstep⟩ := (mem_tickSteps env q).mp hq
      obtain ⟨k, s⟩ := q
      simp only at hk hstep hsp
      subst hk
      have hnone := (processUserStep_skip_recent env (cutoffTime env.now) uid g hpos).1
      rw [← hstep] at hnone
      rw [hnone] at hsp
      cases hsp
  · intro hferr horders hnone hqual
    obtain ⟨v, hv, hts, hvu, u, hu, huemail⟩ := hqual
    have hjmem : (⟨uid, v, u.email, u.full_name⟩ : JoinedView) ∈
        fetchRecentViews env.db (cutoffTime env.now) :=
      (mem_fetchRecentViews env.db (cutoffTime env.now) _).mpr
        ⟨hv, hts, hvu, u, hu, rfl, rfl⟩
    have hgmem : (uid,
        (fetchRecentViews env.db (cutoffTime env.now)).filter (fun w => w.uid == uid)) ∈
        groupByUser (fetchRecentViews env.db (cutoffTime env.now)) :=
      group_of_mem _ _ hjmem
    have hjg : (⟨uid, v, u.email, u.full_name⟩ : JoinedView) ∈
        (fetchRecentViews env.db (cutoffTime env.now)).filter (fun w => w.uid == uid) :=
      List.mem_filter.mpr ⟨hjmem, by simp⟩
    have hlen0 : (recentSmsFor env.db (cutoffTime env.now) uid).length = 0 := by
      cases hrs : recentSmsFor env.db (cutoffTime env.now) uid with
      | nil => simp
      | cons m ms =>
        exfalso
        have hm := List.mem_filter.mp (hrs ▸ List.mem_cons_self m ms)
        exact hnone ⟨m, hm.1, decide_eq_true_eq.mp hm.2⟩
    cases hgc : (fetchRecentViews env.db (cutoffTime env.now)).filter
        (fun w => w.uid == uid) with
    | nil => rw [hgc] at hjg; cases hjg
    | cons v0 rest =>
      have hv0g : v0 ∈ (fetchRecentViews env.db (cutoffTime env.now)).filter
          (fun w => w.uid == uid) := by rw [hgc]; exact List.mem_cons_self _ _
      obtain ⟨hv0f, hbeq⟩ := List.mem_filter.mp hv0g
      have hv0uid : v0.uid = uid := beq_iff_eq.mp hbeq
      obtain ⟨_, _, _, u', hu', he', _⟩ :=
        (mem_fetchRecentViews env.db (cutoffTime env.now) v0).mp hv0f
      have huu : u' = u := by
        rw [hv0uid] at hu'
        exact Option.some.inj (hu'.symm.trans hu)
      have hv0email : truthyOpt v0.email = true := by rw [he', huu]; exact huemail
      have hstep := processUserStep_processed env (cutoffTime env.now) uid v0 rest
        hv0email horders hlen0
      refine tick_processed_mem env uid hferr ?_ ?_
      · cases hfe : fetchRecentViews env.db (cutoffTime env.now) with
        | nil => rw [hfe] at hjmem; cases hjmem
        | cons a l => simp [hfe]
      · refine ⟨(uid, processUserStep env (cutoffTime env.now) uid
          ((fetchRecentViews env.db (cutoffTime env.now)).filter (fun w => w.uid == uid))),
          (mem_tickSteps env _).mpr ⟨_, hgmem, rfl⟩, ?_⟩
        rw [hgc]
        exact hstep

/-- Witness for C2: user 1 of `sampleEnvCooldown` has an sms reminder 500
seconds inside the cooldown window and is skipped; the same user in
`sampleEnv` (no reminder on record) is processed. -/
theorem cooldown_dedupe_witness :
    (∀ r ∈ ((checkAbandonedCarts sampleEnvCooldown LoopState.init).1).inserted,
        r.user_id ≠ 1) ∧
      1 ∈ ((checkAbandonedCarts sampleEnv LoopState.init).1).processedUsers := by
  constructor
  · exact ((cooldown_dedupe sampleEnvCooldown 1).1
      ⟨⟨1, MessageType.sms, "earlier reminder", 9500000⟩, by decide, rfl, rfl, by decide⟩).1
  · exact (cooldown_dedupe sampleEnv 1).2 rfl rfl (by decide)
      ⟨sampleView, by decide, by decide, rfl, sampleUser, rfl, by decide⟩

/-- C3 (counterexample): a tick in which a user reaches generation
successfully records a `messages_sent` row, yet the trace of Delivery
Channel calls is empty — `checkAbandonedCarts` contains no Twilio call at
all (only the `[TEST MODE]` console log; `sendActualSMS` exists in the file
but is never invoked by the tick), so no "production mode" delivery happens
before the insert. -/
theorem delivery_claim_cex :
    ((checkAbandonedCarts sampleEnv LoopState.init).1).inserted =
        [⟨1, MessageType.sms, "Hi Ada!", 10000000⟩] ∧
      ((checkAbandonedCarts sampleEnv LoopState.init).1).delivered = [] := by
  constructor <;> decide

/-- C3 (amended): for every user that reaches message generation
successfully in a tick, the `messages_sent` insert (channel `sms`, content
= the generated text, `sent_at` = now) is attempted unconditionally —
exactly one row results when the insert succeeds, none when it reports an
error — and the Delivery Channel is never called: the scanner is hardcoded
to test mode and only logs the would-be SMS. -/
theorem reminder_recorded_no_delivery (env : TickEnv) (uid : Nat) (v0 : JoinedView)
    (rest : List JoinedView) (msg : String)
    (h1 : truthyOpt v0.email = true)
    (h2 : env.ordersErr uid = false)
    (h3 : (recentSmsFor env.db (cutoffTime env.now) uid).length = 0)
    (hgen : env.generate (displayName v0.full_name (v0.email.getD ""))
        (groupProductNames (v0 :: rest))
        (urgencyOf env.now (oldestViewOf v0 rest).view.timestamp)
        (groupCheckoutLink env uid (v0 :: rest)) = Except.ok msg) :
    processUserStep env (cutoffTime env.now) uid (v0 :: rest) =
        (if env.insertErr uid then UserStep.insertFailed
          else UserStep.logged ⟨uid, MessageType.sms, msg, env.now⟩) ∧
      ((checkAbandonedCarts env LoopState.init).1).delivered = [] := by
  constructor
  · simp only [processUserStep]
    rw [if_neg (by simp [h1]), if_neg (by simp [h2]), if_neg (by omega), hgen]
    rfl
  · exact tick_delivered env

/-- Witness for C3 (amended) at the concrete one-user tick. -/
theorem reminder_recorded_no_delivery_witness :
    processUserStep sampleEnv (cutoffTime sampleEnv.now) 1 [sampleJv] =
        (if sampleEnv.insertErr 1 then UserStep.insertFailed
          else UserStep.logged ⟨1, MessageType.sms, "Hi Ada!", sampleEnv.now⟩) ∧
      ((checkAbandonedCarts sampleEnv LoopState.init).1).delivered = [] :=
  reminder_recorded_no_delivery sampleEnv 1 sampleJv [] "Hi Ada!" (by decide) rfl
    (by decide) rfl

/-- C4: a view whose user reference is unresolvable (null `user_id`, or no
matching `users` row — such views are dropped by the `users!inner` join) or
whose resolved user has no truthy email (skipped by the `!user.email`
guard) never contributes to a reminder: no tick inserts a `messages_sent`
row for that view's user, no matter how recent the view is. -/
theorem missing_email_excluded (env : TickEnv) (v : ViewEvent)
    (hv : v ∈ env.db.views)
    (hno : ∀ uid, v.user_id = some uid → ∀ u, findUser env.db uid = some u →
      truthyOpt u.email = false) :
    ∀ r ∈ ((checkAbandonedCarts env LoopState.init).1).inserted,
      v.user_id ≠ some r.user_id := by
  intro r hr hvr
  obtain ⟨q, hq, hsq⟩ := tick_inserted_of_mem env r hr
  have hk : r.user_id = q.1 := tickSteps_row_user env q hq r hsq
  obtain ⟨g, hg, hstep⟩ := (mem_tickSteps env q).mp hq
  rw [stepInserted_eq_some] at hsq
  have hlog : processUserStep env (cutoffTime env.now) q.1 g = UserStep.logged r := by
    rw [← hstep, hsq]
  obtain ⟨_, _, _, _, v0, rest, hgc, hemail⟩ :=
    processUserStep_logged env (cutoffTime env.now) q.1 g r hlog
  obtain ⟨hkey, hfil⟩ := (mem_groupByUser' _ _ _).mp hg
  have hv0g : v0 ∈ g := by rw [hgc]; exact List.mem_cons_self _ _
  rw [hfil] at hv0g
  obtain ⟨hv0f, hbeq⟩ := List.mem_filter.mp hv0g
  have hv0uid : v0.uid = q.1 := beq_iff_eq.mp hbeq
  obtain ⟨_, _, _, u', hu', he', _⟩ :=
    (mem_fetchRecentViews env.db (cutoffTime env.now) v0).mp hv0f
  have hfalse : truthyOpt u'.email = false := by
    apply hno r.user_id hvr u'
    rw [hk, ← hv0uid]
    exact hu'
  rw [he'] at hemail
  rw [hemail] at hfalse
  cases hfalse

/-- Witness for C4: in the mixed store, the row the tick does insert (for
user 1) cannot be for the email-less user 2's view, even though that view
is the most recent one. -/
theorem missing_email_excluded_witness :
    (sampleViewNoEmail.user_id == some (1 : Nat)) = false := by
  have h := missing_email_excluded sampleEnvMixed sampleViewNoEmail (by decide)
    (by
      intro uid hvu u hu
      have h2 : (2 : Nat) = uid := Option.some.inj hvu
      subst h2
      have h3 : some sampleUserNoEmail = some u := hu
      rw [← Option.some.inj h3]
      rfl)
    ⟨1, MessageType.sms, "Hi Ada!", 10000000⟩ (by decide)
  simpa using h

/-! ## Helper lemmas for the endpoint claims -/

theorem find?_append_none {α : Type} (p : α → Bool) (l1 l2 : List α)
    (h : l1.find? p = none) : (l1 ++ l2).find? p = l2.find? p := by
  induction l1 with
  | nil => rfl
  | cons a l ih =>
    rw [List.cons_append]
    cases hpa : p a with
    | true => rw [List.find?_cons_of_pos _ hpa] at h; cases h
    | false =>
      rw [List.find?_cons_of_neg _ (by rw [hpa]; exact Bool.false_ne_true)] at h
      rw [List.find?_cons_of_neg _ (by rw [hpa]; exact Bool.false_ne_true)]
      exact ih h

theorem findProduct_congr (db1 db2 : DB) (pid : String)
    (h : db1.products = db2.products) : findProduct db1 pid = findProduct db2 pid := by
  unfold findProduct
  rw [h]

theorem resolveUserDb_products (db : DB) (em : Option String) :
    (resolveUserDb db em).2.products = db.products := by
  cases em with
  | none => rfl
  | some e =>
    simp only [resolveUserDb]
    cases h : findUserByEmail db e with
    | none => rfl
    | some uid => rfl

theorem resolveUserDb_views (db : DB) (em : Option String) :
    (resolveUserDb db em).2.views = db.views := by
  cases em with
  | none => rfl
  | some e =>
    simp only [resolveUserDb]
    cases h : findUserByEmail db e with
    | none => rfl
    | some uid => rfl

theorem ensureProduct_views (db : DB) (pid pname : String) :
    (ensureProduct db pid pname).views = db.views := by
  unfold ensureProduct
  cases h : findProduct db pid with
  | none => rfl
  | some p => rfl

theorem ensureProduct_products_new (db : DB) (pid pname : String)
    (h : findProduct db pid = none) :
    (ensureProduct db pid pname).products = db.products ++ [⟨pid, pname⟩] := by
  unfold ensureProduct
  rw [h]

theorem ensureProduct_of_found (db : DB) (pid pname : String) (p : Product)
    (h : findProduct db pid = some p) : ensureProduct db pid pname = db := by
  unfold ensureProduct
  rw [h]

theorem insertView_views (db : DB) (userId : Option Nat) (pid pname : String) (ts : Nat) :
    (insertView db userId pid pname ts).2.views =
      db.views ++ [⟨db.nextViewId, userId, pid, pname, ts⟩] := rfl

theorem insertView_products (db : DB) (userId : Option Nat) (pid pname : String) (ts : Nat) :
    (insertView db userId pid pname ts).2.products = db.products := rfl

/-- A handler environment whose user and product persistence is down
(every lookup/creation rejects) but whose view insert succeeds with row id
0; the date parser treats every input as unparseable. -/
def sampleEndpointEnv : EndpointEnv :=
  { nowIso := 1000
    parseTs := fun _ => none
    userLookup := fun _ => Except.error "connection refused"
    userCreate := fun _ => Except.error "connection refused"
    productLookup := fun _ => Except.error "connection refused"
    productCreate := fun _ _ => Except.error "connection refused"
    viewInsert := fun _ _ _ _ => Except.ok 0 }

/-- A request carrying `user_email: ""` — present but empty. -/
def reqEmptyEmail : TrackRequest :=
  ⟨some (JValue.jstr ""), some (JValue.jstr "p1"), some (JValue.jstr "Widget"), none⟩

/-- A request with the `product_id` key absent. -/
def reqMissingPid : TrackRequest :=
  ⟨none, none, some (JValue.jstr "Widget"), none⟩

/-- A request with a valid email and product fields. -/
def reqWithEmail : TrackRequest :=
  ⟨some (JValue.jstr "ada@example.com"), some (JValue.jstr "p1"),
    some (JValue.jstr "Widget"), none⟩

/-- C5 (counterexample): `user_email: ""` is *present* and is not a
syntactically valid address (`validEmail "" = false`), yet the handler's
`if (user_email)` treats the empty string as absent: the request is
accepted with HTTP 200 and the view is inserted with a null user reference
instead of being rejected with 400. -/
theorem validation_claim_cex :
    validEmail "" = false ∧
      (jfield (some (JValue.jstr ""))).truthy = false ∧
      trackView sampleEndpointEnv reqEmptyEmail =
        (TrackResponse.okResponse 0 none "p1" 1000,
          some ⟨0, none, "p1", "Widget", 1000⟩, none) := by
  refine ⟨by decide, by decide, ?_⟩
  rfl

/-- C5 (amended): the View Recorder returns HTTP 400 with `{ error }` and
inserts nothing whenever `product_id` or `product_name` is missing, falsy
(empty), or not a string; or `timestamp` is present *and truthy* but not
parseable; or `user_email` is present *and truthy* but not a syntactically
valid address.  (A falsy `""`/`0` timestamp or a falsy `""` email skips its
validation instead — see the counterexample.) -/
theorem validation_rejects_400 (env : EndpointEnv) (req : TrackRequest)
    (h : (jfield req.product_id).truthy = false ∨ isStr (jfield req.product_id) = none ∨
      (jfield req.product_name).truthy = false ∨ isStr (jfield req.product_name) = none ∨
      ((jfield req.timestamp).truthy = true ∧ env.parseTs (jfield req.timestamp) = none) ∨
      ((jfield req.user_email).truthy = true ∧ validEmailJ (jfield req.user_email) = false)) :
    ∃ e, trackView env req = (TrackResponse.badRequest e, none, none) := by
  suffices hs : ∃ e, validateTrack env.parseTs env.nowIso req = Except.error e by
    obtain ⟨e, he⟩ := hs
    refine ⟨e, ?_⟩
    unfold trackView
    rw [he]
  unfold validateTrack
  cases h1 : requiredFieldsCheck req with
  | error e => exact ⟨e, rfl⟩
  | ok u =>
    have hpidT : (jfield req.product_id).truthy = true := by
      unfold requiredFieldsCheck at h1
      cases hB : (jfield req.product_id).truthy
      · rw [if_pos (by rw [hB]; rfl)] at h1; cases h1
      · rfl
    have hpnameT : (jfield req.product_name).truthy = true := by
      unfold requiredFieldsCheck at h1
      cases hB : (jfield req.product_name).truthy
      · rw [if_pos (by rw [hB]; simp)] at h1; cases h1
      · rfl
    cases h2 : requireNonEmptyStr "Invalid product_id: must be a non-empty string"
        (jfield req.product_id) with
    | error e => exact ⟨e, rfl⟩
    | ok pid' =>
      have hpidS : isStr (jfield req.product_id) ≠ none := by
        intro hn
        unfold requireNonEmptyStr at h2
        rw [hn] at h2
        cases h2
      cases h3 : requireNonEmptyStr "Invalid product_name: must be a non-empty string"
          (jfield req.product_name) with
      | error e => exact ⟨e, rfl⟩
      | ok pname' =>
        have hpnameS : isStr (jfield req.product_name) ≠ none := by
          intro hn
          unfold requireNonEmptyStr at h3
          rw [hn] at h3
          cases h3
        cases h4 : validatedTimestamp env.parseTs env.nowIso (jfield req.timestamp) with
        | error e => exact ⟨e, rfl⟩
        | ok ts' =>
          have hts : ¬ ((jfield req.timestamp).truthy = true ∧
              env.parseTs (jfield req.timestamp) = none) := by
            rintro ⟨ha, hb⟩
            unfold validatedTimestamp at h4
            rw [if_pos ha, hb] at h4
            cases h4
          cases h5 : validatedEmail (jfield req.user_email) with
          | error e => exact ⟨e, rfl⟩
          | ok em' =>
            have hem : ¬ ((jfield req.user_email).truthy = true ∧
                validEmailJ (jfield req.user_email) = false) := by
              rintro ⟨ha, hb⟩
              unfold validatedEmail at h5
              rw [if_pos ha] at h5
              cases hjv : jfield req.user_email with
              | jstr s =>
                rw [hjv] at h5 hb
                have hve : validEmail s = false := hb
                simp only [hve] at h5
                cases h5
              | jnum n => rw [hjv] at h5; cases h5
              | jbool b => rw [hjv] at h5; cases h5
              | jnull => rw [hjv] at h5; cases h5
            rcases h with hd | hd | hd | hd | hd | hd
            · rw [hd] at hpidT; cases hpidT
            · exact absurd hd hpidS
            · rw [hd] at hpnameT; cases hpnameT
            · exact absurd hd hpnameS
            · exact absurd hd hts
            · exact absurd hd hem

/-- Witness for C5 (amended) at a request with the `product_id` key absent. -/
theorem validation_rejects_400_witness :
    ∃ e, trackView sampleEndpointEnv reqMissingPid =
      (TrackResponse.badRequest e, none, none) :=
  validation_rejects_400 sampleEndpointEnv reqMissingPid (Or.inl rfl)

/-- An empty store. -/
def emptyDb : DB := ⟨[], [], [], [], 0, 0⟩

/-- First ingestion of `p1`, named `Widget`. -/
def reqFirstName : TrackRequest :=
  ⟨none, some (JValue.jstr "p1"), some (JValue.jstr "Widget"), none⟩

/-- Second ingestion of `p1`, renamed `Gadget`. -/
def reqSecondName : TrackRequest :=
  ⟨none, some (JValue.jstr "p1"), some (JValue.jstr "Gadget"), none⟩

/-- C6: for every request that passes validation, the tail of the handler
is decided solely by the `products_viewed` insert: an insert error is the
only hard failure, returned as HTTP 500 `{ error, details }` with nothing
inserted; otherwise HTTP 200 is returned and the view row is inserted with
whatever user reference resolution produced — and every user-resolution
failure mode (lookup throw; lookup finding nothing followed by a creation
throw or a creation error) leaves that reference null rather than aborting
the request. -/
theorem resolution_failure_degrades (env : EndpointEnv) (req : TrackRequest)
    (pid pname : String) (ts : Nat) (em : Option String)
    (hval : validateTrack env.parseTs env.nowIso req = Except.ok (pid, pname, ts, em)) :
    (∀ d, env.viewInsert (resolveUser env em) pid pname ts = Except.error d →
      trackView env req =
        (TrackResponse.serverError "Failed to track product view" d, none,
          productStep env pid pname)) ∧
      (∀ vid, env.viewInsert (resolveUser env em) pid pname ts = Except.ok vid →
        trackView env req =
          (TrackResponse.okResponse vid (resolveUser env em) pid ts,
            some ⟨vid, resolveUser env em, pid, pname, ts⟩,
            productStep env pid pname)) ∧
      (∀ e s, em = some e → env.userLookup e = Except.error s →
        resolveUser env em = none) ∧
      (∀ e s, em = some e → env.userLookup e = Except.ok none →
        env.userCreate e = Except.error s → resolveUser env em = none) ∧
      (∀ e, em = some e → env.userLookup e = Except.ok none →
        env.userCreate e = Except.ok none → resolveUser env em = none) := by
  have hT : trackView env req =
      (match env.viewInsert (resolveUser env em) pid pname ts with
        | Except.error d =>
          (TrackResponse.serverError "Failed to track product view" d, none,
            productStep env pid pname)
        | Except.ok vid =>
          (TrackResponse.okResponse vid (resolveUser env em) pid ts,
            some ⟨vid, resolveUser env em, pid, pname, ts⟩,
            productStep env pid pname)) := by
    unfold trackView
    rw [hval]
  refine ⟨?_, ?_, ?_, ?_, ?_⟩
  · intro d hins
    rw [hins] at hT
    exact hT
  · intro vid hins
    rw [hins] at hT
    exact hT
  · intro e s hem hlk
    rw [hem]
    simp only [resolveUser]
    rw [hlk]
  · intro e s hem hlk hcr
    rw [hem]
    have hR : resolveUser env (some e) =
        (match env.userCreate e with
          | Except.error _ => none
          | Except.ok r => r) := by
      simp only [resolveUser]
      rw [hlk]
    rw [hcr] at hR
    exact hR
  · intro e hem hlk hcr
    rw [hem]
    have hR : resolveUser env (some e) =
        (match env.userCreate e with
          | Except.error _ => none
          | Except.ok r => r) := by
      simp only [resolveUser]
      rw [hlk]
    rw [hcr] at hR
    exact hR

/-- Witness for C6: with the user lookup and creation throwing and the
insert succeeding, the request still gets HTTP 200 and a view row with a
null user reference. -/
theorem resolution_failure_degrades_witness :
    trackView sampleEndpointEnv reqWithEmail =
        (TrackResponse.okResponse 0 none "p1" 1000,
          some ⟨0, none, "p1", "Widget", 1000⟩, none) ∧
      resolveUser sampleEndpointEnv (some "ada@example.com") = none := by
  have h := resolution_failure_degrades sampleEndpointEnv reqWithEmail
    "p1" "Widget" 1000 (some "ada@example.com") rfl
  have h3 : resolveUser sampleEndpointEnv (some "ada@example.com") = none :=
    h.2.2.1 "ada@example.com" "connection refused" rfl rfl
  have h2 := h.2.1 0 rfl
  rw [h3] at h2
  exact ⟨h2, h3⟩

/-- C7: for two ingestion calls with the same `product_id` and different
`product_name` values, the `products` row keeps the name supplied at first
creation — the second call finds the existing row and does not overwrite it
— while each of the two `products_viewed` rows stores its own supplied name
verbatim. -/
theorem product_name_first_write_wins
    (parseTs1 parseTs2 : JValue → Option Nat) (now1 now2 : Nat)
    (req1 req2 : TrackRequest) (db : DB) (pid n1 n2 : String)
    (ts1 ts2 : Nat) (em1 em2 : Option String)
    (hval1 : validateTrack parseTs1 now1 req1 = Except.ok (pid, n1, ts1, em1))
    (hval2 : validateTrack parseTs2 now2 req2 = Except.ok (pid, n2, ts2, em2))
    (hdiff : n1 ≠ n2)
    (hnew : findProduct db pid = none) :
    ∃ v1 v2 : ViewEvent,
      v1.product_id = pid ∧ v1.product_name = n1 ∧
      v2.product_id = pid ∧ v2.product_name = n2 ∧
      (trackViewDb parseTs2 now2 req2 (trackViewDb parseTs1 now1 req1 db).2).2.views =
        db.views ++ [v1] ++ [v2] ∧
      findProduct (trackViewDb parseTs2 now2 req2 (trackViewDb parseTs1 now1 req1 db).2).2
        pid = some ⟨pid, n1⟩ := by
  have h1 : (trackViewDb parseTs1 now1 req1 db).2 =
      (insertView (ensureProduct (resolveUserDb db em1).2 pid n1)
        (resolveUserDb db em1).1 pid n1 ts1).2 := by
    unfold trackViewDb
    rw [hval1]
  have hfp1 : findProduct (resolveUserDb db em1).2 pid = none := by
    rw [findProduct_congr _ db pid (resolveUserDb_products db em1)]
    exact hnew
  have hprod1 : (trackViewDb parseTs1 now1 req1 db).2.products =
      db.products ++ [⟨pid, n1⟩] := by
    rw [h1, insertView_products, ensureProduct_products_new _ _ _ hfp1,
      resolveUserDb_products]
  have hviews1 : (trackViewDb parseTs1 now1 req1 db).2.views =
      db.views ++ [⟨(ensureProduct (resolveUserDb db em1).2 pid n1).nextViewId,
        (resolveUserDb db em1).1, pid, n1, ts1⟩] := by
    rw [h1, insertView_views, ensureProduct_views, resolveUserDb_views]
  have hfp2 : findProduct (trackViewDb parseTs1 now1 req1 db).2 pid = some ⟨pid, n1⟩ := by
    unfold findProduct
    rw [hprod1]
    rw [find?_append_none _ _ _ hnew]
    rw [List.find?_cons_of_pos _ (by simp)]
  have h2 : (trackViewDb parseTs2 now2 req2 (trackViewDb parseTs1 now1 req1 db).2).2 =
      (insertView
        (ensureProduct (resolveUserDb (trackViewDb parseTs1 now1 req1 db).2 em2).2 pid n2)
        (resolveUserDb (trackViewDb parseTs1 now1 req1 db).2 em2).1 pid n2 ts2).2 := by
    unfold trackViewDb
    rw [hval2]
  have hfp2' : findProduct
      (resolveUserDb (trackViewDb parseTs1 now1 req1 db).2 em2).2 pid = some ⟨pid, n1⟩ := by
    rw [findProduct_congr _ (trackViewDb parseTs1 now1 req1 db).2 pid
      (resolveUserDb_products _ em2)]
    exact hfp2
  have hens2 := ensureProduct_of_found _ pid n2 _ hfp2'
  refine ⟨⟨(ensureProduct (resolveUserDb db em1).2 pid n1).nextViewId,
      (resolveUserDb db em1).1, pid, n1, ts1⟩,
    ⟨(ensureProduct (resolveUserDb (trackViewDb parseTs1 now1 req1 db).2 em2).2 pid n2).nextViewId,
      (resolveUserDb (trackViewDb parseTs1 now1 req1 db).2 em2).1, pid, n2, ts2⟩,
    rfl, rfl, rfl, rfl, ?_, ?_⟩
  · rw [h2, insertView_views, ensureProduct_views, resolveUserDb_views, hviews1]
  · rw [h2, findProduct_congr _
      (ensureProduct (resolveUserDb (trackViewDb parseTs1 now1 req1 db).2 em2).2 pid n2)
      pid (insertView_products _ _ _ _ _)]
    rw [hens2]
    exact hfp2'

/-- Witness for C7: two calls for `p1` named `Widget` then `Gadget` against
an empty store. -/
theorem product_name_first_write_wins_witness :
    ∃ v1 v2 : ViewEvent,
      v1.product_id = "p1" ∧ v1.product_name = "Widget" ∧
      v2.product_id = "p1" ∧ v2.product_name = "Gadget" ∧
      (trackViewDb (fun _ => none) 2000 reqSecondName
        (trackViewDb (fun _ => none) 1000 reqFirstName emptyDb).2).2.views =
        emptyDb.views ++ [v1] ++ [v2] ∧
      findProduct (trackViewDb (fun _ => none) 2000 reqSecondName
        (trackViewDb (fun _ => none) 1000 reqFirstName emptyDb).2).2 "p1" =
        some ⟨"p1", "Widget"⟩ :=
  product_name_first_write_wins (fun _ => none) (fun _ => none) 1000 2000
    reqFirstName reqSecondName emptyDb "p1" "Widget" "Gadget" 1000 2000 none none
    rfl rfl (by decide) rfl
